import Mathlib

/-!
Shallow embedding of the Tribler tunnel community data plane
(`Tribler/community/tunnel/tunnel_community.py`).

Python dicts are modelled as association lists keyed by 32-bit circuit ids
(`List (Nat × _)`), wall-clock times as `Int` seconds, byte strings as
`List Nat`, and the black-box AEAD primitives (`TunnelCrypto.encrypt_str` /
`decrypt_str`) as an abstract `CryptoModel`.  Functions that raise
`CryptoException` (or hit a `KeyError`) return `Option`.  Outgoing messages
(`send_destroy`, the `created` reply) are returned explicitly as `OutMsg`
lists instead of being written to the UDP endpoint.
-/

set_option maxRecDepth 8000

abbrev Content := List Nat

abbrev Addr := Nat × Nat

/-- Direction index `ORIGINATOR` of a session-key sextuple.  The constants
come from `Tribler/community/tunnel/__init__.py` (not under `src/`); the
layout `keys[direction]`, `keys[direction + 2]`, `keys[direction + 4]` is
implied by `TunnelCommunity.get_session_keys` in the source. -/
def ORIGINATOR : Nat := 0

/-- Direction index `EXIT_NODE` of a session-key sextuple. -/
def EXIT_NODE : Nat := 1

/-- Salt index `ORIGINATOR_SALT = ORIGINATOR + 2`. -/
def ORIGINATOR_SALT : Nat := 2

/-- Salt index `EXIT_NODE_SALT = EXIT_NODE + 2`. -/
def EXIT_NODE_SALT : Nat := 3

/-- Circuit types `CIRCUIT_TYPE_DATA`, `CIRCUIT_TYPE_RP`,
`CIRCUIT_TYPE_RENDEZVOUS` (string constants in the Python package,
modelled as an enumeration). -/
inductive CType where
  | DATA
  | RP
  | RENDEZVOUS
  deriving DecidableEq, Repr

/-- A session-key sextuple `[key_orig, key_exit, salt_orig, salt_exit,
salt_explicit_orig, salt_explicit_exit]`: the Python code stores it as a
6-element list indexed by the direction constants above. -/
structure SessionKeys where
  key_orig : Nat
  key_exit : Nat
  salt_orig : Nat
  salt_exit : Nat
  se_orig : Nat
  se_exit : Nat
  deriving DecidableEq, Repr

/-- Read `keys[i]` of the sextuple, mirroring the Python list indexing. -/
def keyAt (keys : SessionKeys) (i : Nat) : Nat :=
  if i = 0 then keys.key_orig
  else if i = 1 then keys.key_exit
  else if i = 2 then keys.salt_orig
  else if i = 3 then keys.salt_exit
  else if i = 4 then keys.se_orig
  else keys.se_exit

/-- Source `TunnelCommunity.get_session_keys(keys, direction)`:
`keys[direction + 4] += 1; return keys[direction], keys[direction + 2],
keys[direction + 4]`.  The callers only ever pass direction 0 or 1.
Returns the `(key, salt, salt_explicit)` triple together with the updated
sextuple (the Python code mutates the list in place). -/
def get_session_keys (keys : SessionKeys) (direction : Nat) :
    (Nat × Nat × Nat) × SessionKeys :=
  if direction = ORIGINATOR then
    let keys2 := { keys with se_orig := keys.se_orig + 1 }
    ((keys2.key_orig, keys2.salt_orig, keys2.se_orig), keys2)
  else
    let keys2 := { keys with se_exit := keys.se_exit + 1 }
    ((keys2.key_exit, keys2.salt_exit, keys2.se_exit), keys2)

/-- Modelled from the spec: a `Hop` of `Tribler/community/tunnel/routing.py`
(the file is not under `src/`): one peer of a circuit together with its
negotiated session-key sextuple.  The handshake fields (dh_secret etc.) are
irrelevant to the claims and omitted. -/
structure Hop where
  session_keys : SessionKeys
  address : Addr := (0, 0)
  deriving DecidableEq, Repr

/-- Modelled from the spec: the initiator-side `Circuit` of `routing.py`
(not under `src/`); only the attributes read by the code under `src/`
(`do_remove`, `on_destroy`, `crypto_out`, `crypto_in`) are kept. -/
structure Circuit where
  circuit_id : Nat := 0
  goal_hops : Nat := 0
  hops : List Hop := []
  first_hop : Addr := (0, 0)
  ctype : CType := CType.DATA
  creation_time : Int := 0
  last_incoming : Int := 0
  bytes_up : Nat := 0
  bytes_down : Nat := 0
  hs_session_keys : SessionKeys := ⟨0, 0, 0, 0, 0, 0⟩
  deriving DecidableEq, Repr

/-- Modelled from the spec: `RelayRoute` of `routing.py` (not under `src/`):
the outbound circuit id and next neighbour address for one direction of a
forwarded circuit, plus the counters read by the sweeper. -/
structure RelayRoute where
  circuit_id : Nat
  sock_addr : Addr
  rendezvous_relay : Bool := false
  creation_time : Int := 0
  last_incoming : Int := 0
  bytes_up : Nat := 0
  bytes_down : Nat := 0
  deriving DecidableEq, Repr

/-- Source `TunnelExitSocket` (source lines 101-181): `port` is `None` until
`enable()` binds a UDP port; `ips` is the per-destination-IP abuse counter
(`defaultdict(int)`, so absent keys read as 0).  Destination IPs are
modelled as `Nat`. -/
structure ExitSock where
  circuit_id : Nat := 0
  sock_addr : Addr := (0, 0)
  port : Option Nat := none
  ips : List (Nat × Int) := []
  bytes_up : Nat := 0
  bytes_down : Nat := 0
  creation_time : Int := 0
  deriving DecidableEq, Repr

/-- Source `TunnelExitSocket.enabled`: `self.port is not None`. -/
def ExitSock.enabled (e : ExitSock) : Bool := e.port.isSome

/-- Python dict lookup `m.get(k, None)` over an association list. -/
def dictLookup {α : Type} (m : List (Nat × α)) (k : Nat) : Option α :=
  match m with
  | [] => none
  | kv :: rest => if kv.1 = k then some kv.2 else dictLookup rest k

/-- Python membership `k in m`. -/
def dictContains {α : Type} (m : List (Nat × α)) (k : Nat) : Bool :=
  (dictLookup m k).isSome

/-- Python dict assignment `m[k] = v` (replaces an existing key in place,
appends a fresh key). -/
def dictInsert {α : Type} (m : List (Nat × α)) (k : Nat) (v : α) :
    List (Nat × α) :=
  match m with
  | [] => [(k, v)]
  | kv :: rest => if kv.1 = k then (k, v) :: rest else kv :: dictInsert rest k v

/-- Python `del m[k]` / `m.pop(k)` (the state part). -/
def dictRemove {α : Type} (m : List (Nat × α)) (k : Nat) : List (Nat × α) :=
  match m with
  | [] => []
  | kv :: rest => if kv.1 = k then dictRemove rest k else kv :: dictRemove rest k

/-- Read of a `defaultdict(int)`: absent keys read as 0. -/
def ipsGet (m : List (Nat × Int)) (k : Nat) : Int :=
  (dictLookup m k).getD 0

/-- TunnelSettings.max_relays_or_exits (source line 192). -/
def max_relays_or_exits : Nat := 100

/-- TunnelSettings.max_time = 10 * 60 seconds (source line 194). -/
def max_time : Int := 10 * 60

/-- TunnelSettings.max_time_inactive = 20 seconds (source line 195). -/
def max_time_inactive : Int := 20

/-- TunnelSettings.max_traffic = 55 MiB (source line 196). -/
def max_traffic : Nat := 55 * 1024 * 1024

/-- TunnelSettings.max_packets_without_reply (source line 198). -/
def max_packets_without_reply : Nat := 50

/-- Result of `TunnelExitSocket.check_num_packets`: whether the packet is
allowed, the updated per-IP counters, and whether
`remove_exit_socket(circuit_id, destroy=True)` was invoked on the
community (destroying this exit socket). -/
structure CheckResult where
  allowed : Bool
  ips : List (Nat × Int)
  destroyed : Bool
  deriving DecidableEq, Repr

/-- Source `TunnelExitSocket.check_num_packets(ip, incoming)` (source lines
165-181), acting on the per-IP counter map of one exit socket. -/
def check_num_packets (ips : List (Nat × Int)) (ip : Nat) (incoming : Bool) :
    CheckResult :=
  if ipsGet ips ip < 0 then
    { allowed := true, ips := ips, destroyed := false }
  else if ipsGet ips ip ≥
      (if incoming then (max_packets_without_reply : Int) + 1
       else (max_packets_without_reply : Int)) then
    { allowed := false, ips := ips, destroyed := true }
  else if incoming then
    { allowed := true, ips := dictInsert ips ip (-1), destroyed := false }
  else
    { allowed := true, ips := dictInsert ips ip (ipsGet ips ip + 1), destroyed := false }

/-- Iterate `check_num_packets` for `n` outbound packets to `ip`, starting
from the fresh `defaultdict(int)` of a new `TunnelExitSocket` (no inbound
reply ever arrives). -/
def sendStream (ip : Nat) : Nat → List (Nat × Int)
  | 0 => []
  | n + 1 => (check_num_packets (sendStream ip n) ip false).ips

/-- Run a sequence of `check_num_packets` calls against one destination IP
(`true` = incoming, `false` = outgoing), threading the counter map;
result is `true` iff every packet of the sequence was allowed. -/
def run_checks (ips : List (Nat × Int)) (ip : Nat) : List Bool → Bool
  | [] => true
  | inc :: rest =>
    let r := check_num_packets ips ip inc
    r.allowed && run_checks r.ips ip rest

/-- The per-node routing state of `TunnelCommunity.__init__` (source lines
248-254): `circuits`, `relay_from_to`, `relay_session_keys`,
`exit_sockets`, `directions`, `waiting_for`, plus the `anon-created`
request-cache entries (`CreatedRequestCache`, keyed by circuit id; the
cached value we keep is the candidate address). -/
structure TState where
  circuits : List (Nat × Circuit) := []
  relay_from_to : List (Nat × RelayRoute) := []
  relay_session_keys : List (Nat × SessionKeys) := []
  exit_sockets : List (Nat × ExitSock) := []
  directions : List (Nat × Nat) := []
  waiting_for : List Nat := []
  created_requests : List (Nat × Addr) := []
  deriving DecidableEq, Repr

def emptyState : TState := {}

/-- Python `==` between an `int` dict key and a `tuple` query: values of
different types never compare equal in Python, so the result is always
`False`.  `_generate_circuit_id` tests
`(neighbour, circuit_id) in self.relay_from_to` although `relay_from_to`
is keyed by plain circuit ids (ints); dict membership compares the query
against the keys with `==`, hence this function. -/
def pyIntEqTuple (_intKey : Nat) (_tupleQuery : Addr × Nat) : Bool := false

/-- Source `TunnelCommunity._generate_circuit_id(neighbour)` (source lines
395-402).  `random.getrandbits(32)` is modelled by consuming the given
stream of samples; the `while` loop takes the first sample that passes the
collision test, and returns `none` if the stream is exhausted. -/
def generate_circuit_id (samples : List Nat) (circuits : List (Nat × Circuit))
    (relay_from_to : List (Nat × RelayRoute)) (neighbour : Option Addr) :
    Option Nat :=
  match samples with
  | [] => none
  | cid :: rest =>
    if dictContains circuits cid ||
        (neighbour.isSome &&
          relay_from_to.any (fun kv => pyIntEqTuple kv.1 (neighbour.getD (0, 0), cid))) then
      generate_circuit_id rest circuits relay_from_to neighbour
    else some cid

/-- Messages emitted to the UDP endpoint by the functions modelled here:
`send_destroy(candidate, circuit_id, reason)` and the `created` reply of
`on_create`. -/
inductive OutMsg where
  | destroy (dest : Addr) (circuit_id : Nat) (reason : Nat)
  | created (dest : Addr) (circuit_id : Nat)
  deriving DecidableEq, Repr

/-- Source `TunnelCommunity.destroy_circuit` (source lines 616-620): if the
circuit exists, send a destroy to its first hop. -/
def destroy_circuit (s : TState) (circuit_id : Nat) (reason : Nat) : List OutMsg :=
  match dictLookup s.circuits circuit_id with
  | some c => [OutMsg.destroy c.first_hop circuit_id reason]
  | none => []

/-- Source `TunnelCommunity.remove_circuit` (source lines 546-576).  The SOCKS5
notification and the BitTorrent peer harvesting act on external
collaborators (socks server, libtorrent session) and are outside the
tunnel state; the tunnel-state effect is popping `circuits[circuit_id]`.
Returns the new state, the emitted destroys, and the Python return
value. -/
def remove_circuit (s : TState) (circuit_id : Nat) (destroy : Bool) :
    TState × List OutMsg × Bool :=
  if dictContains s.circuits circuit_id then
    let msgs := if destroy then destroy_circuit s circuit_id 0 else []
    ({ s with circuits := dictRemove s.circuits circuit_id }, msgs, true)
  else (s, [], false)

/-- The keys `k` with `relay_from_to[k].circuit_id == circuit_id`
(the other side of the relay, collected by the loop at source lines
580-584). -/
def mirrorKeys (rft : List (Nat × RelayRoute)) (circuit_id : Nat) : List Nat :=
  (rft.filter (fun kv => decide (kv.2.circuit_id = circuit_id))).map Prod.fst

/-- Source `TunnelCommunity.destroy_relay(circuit_ids, reason, got_destroy_from)`
(source lines 622-636): build `relays = {cid_from: (cid_to, sock_addr)}`;
if `got_destroy_from` is set but is not among the values, log and send
nothing; otherwise send a destroy to every side except the one the destroy
came from. -/
def destroy_relay (s : TState) (circuit_ids : List Nat) (reason : Nat)
    (got_destroy_from : Option (Nat × Addr)) : List OutMsg :=
  let relays := circuit_ids.filterMap (fun cid =>
    (dictLookup s.relay_from_to cid).map (fun rt => (cid, rt.circuit_id, rt.sock_addr)))
  if got_destroy_from.isSome &&
      !(relays.any (fun r => decide (some (r.2.1, r.2.2) = got_destroy_from))) then
    []
  else
    (relays.filter (fun r => !decide (some (r.2.1, r.2.2) = got_destroy_from))).map
      (fun r => OutMsg.destroy r.2.2 r.2.1 reason)

/-- One iteration of the deletion loop of `remove_relay` (source lines
590-599): `if cid in relay_from_to: del relay_from_to[cid];
if cid in relay_session_keys: del relay_session_keys[cid]`. -/
def relayDeleteStep (s : TState) (cid : Nat) : TState :=
  if dictContains s.relay_from_to cid then
    { s with
      relay_from_to := dictRemove s.relay_from_to cid,
      relay_session_keys :=
        (if dictContains s.relay_session_keys cid then
          dictRemove s.relay_session_keys cid
        else s.relay_session_keys) }
  else s

/-- Source `TunnelCommunity.remove_relay` (source lines 578-599): collect
`to_remove` (the id itself plus, with `both_sides`, every mirror key),
optionally call `destroy_relay`, then delete the collected entries and
their session keys. -/
def remove_relay (s : TState) (circuit_id : Nat) (destroy : Bool)
    (got_destroy_from : Option (Nat × Addr)) (both_sides : Bool) :
    TState × List OutMsg :=
  let to_remove := circuit_id ::
    (if both_sides then mirrorKeys s.relay_from_to circuit_id else [])
  let msgs := if destroy then destroy_relay s to_remove 0 got_destroy_from else []
  (to_remove.foldl relayDeleteStep s, msgs)

/-- Source `TunnelCommunity.destroy_exit_socket` (source lines 638-642). -/
def destroy_exit_socket (s : TState) (circuit_id : Nat) (reason : Nat) : List OutMsg :=
  match dictLookup s.exit_sockets circuit_id with
  | some sock => [OutMsg.destroy sock.sock_addr circuit_id reason]
  | none => []

/-- Source `TunnelCommunity.remove_exit_socket` (source lines 601-614): pop the
socket; only when the socket was `enabled` is it closed and the
`relay_session_keys` entry deleted. -/
def remove_exit_socket (s : TState) (circuit_id : Nat) (destroy : Bool) :
    TState × List OutMsg :=
  match dictLookup s.exit_sockets circuit_id with
  | some exit_socket =>
    let msgs := if destroy then destroy_exit_socket s circuit_id 0 else []
    let s1 := { s with exit_sockets := dictRemove s.exit_sockets circuit_id }
    if exit_socket.enabled then
      let s2 :=
        if dictContains s1.relay_session_keys circuit_id then
          { s1 with relay_session_keys := dictRemove s1.relay_session_keys circuit_id }
        else s1
      (s2, msgs)
    else (s1, msgs)
  | none => (s, [])

/-- One iteration of the circuit loop of `do_remove` (source lines
425-431): remove on inactivity, age, or traffic. -/
def sweepCircuitStep (now : Int) (s : TState) (kv : Nat × Circuit) : TState :=
  if kv.2.last_incoming < now - max_time_inactive then (remove_circuit s kv.1 false).1
  else if kv.2.creation_time < now - max_time then (remove_circuit s kv.1 false).1
  else if kv.2.bytes_up + kv.2.bytes_down > max_traffic then (remove_circuit s kv.1 false).1
  else s

/-- One iteration of the relay loop of `do_remove` (source lines 434-440):
same three rules, `both_sides=False`. -/
def sweepRelayStep (now : Int) (s : TState) (kv : Nat × RelayRoute) : TState :=
  if kv.2.last_incoming < now - max_time_inactive then (remove_relay s kv.1 false none false).1
  else if kv.2.creation_time < now - max_time then (remove_relay s kv.1 false none false).1
  else if kv.2.bytes_up + kv.2.bytes_down > max_traffic then (remove_relay s kv.1 false none false).1
  else s

/-- One iteration of the exit-socket loop of `do_remove` (source lines
443-447): only the age and traffic rules. -/
def sweepExitStep (now : Int) (s : TState) (kv : Nat × ExitSock) : TState :=
  if kv.2.creation_time < now - max_time then (remove_exit_socket s kv.1 false).1
  else if kv.2.bytes_up + kv.2.bytes_down > max_traffic then (remove_exit_socket s kv.1 false).1
  else s

/-- The removal condition `do_remove` applies to an exit socket. -/
def exitSweepCond (now : Int) (e : ExitSock) : Bool :=
  decide (e.creation_time < now - max_time) ||
  decide (e.bytes_up + e.bytes_down > max_traffic)

/-- Source `TunnelCommunity.do_remove` (source lines 423-455): sweep circuits,
relays and exit sockets in that order, each loop iterating over the
snapshot of items taken when the loop starts.  The final
`exit_candidates` garbage collection concerns the discovery overlay
(an external collaborator) and is not part of the tunnel state. -/
def do_remove (s : TState) (now : Int) : TState :=
  let s1 := s.circuits.foldl (sweepCircuitStep now) s
  let s2 := s1.relay_from_to.foldl (sweepRelayStep now) s1
  s2.exit_sockets.foldl (sweepExitStep now) s2

/-- Source `TunnelCommunity.on_destroy` (source lines 1105-1129) for one destroy
message: `circuit_id` from the payload, `sender` the candidate's socket
address. -/
def on_destroy (s : TState) (circuit_id : Nat) (sender : Addr) :
    TState × List OutMsg :=
  if dictContains s.relay_from_to circuit_id then
    remove_relay s circuit_id true (some (circuit_id, sender)) true
  else if dictContains s.exit_sockets circuit_id then
    match dictLookup s.exit_sockets circuit_id with
    | some sock =>
      if sender ≠ sock.sock_addr then (s, [])
      else remove_exit_socket s circuit_id false
    | none => (s, [])
  else if dictContains s.circuits circuit_id then
    match dictLookup s.circuits circuit_id with
    | some circ =>
      if sender ≠ circ.first_hop then (s, [])
      else
        let r := remove_circuit s circuit_id false
        (r.1, r.2.1)
    | none => (s, [])
  else (s, [])

/-- Source `TunnelCommunity.on_create` (source lines 901-947) for one create
message.  The Diffie-Hellman handshake (`generate_diffie_shared_secret`,
`generate_session_keys`) and the `dispersy_yield_verified_candidates`
scan are external black boxes; their results enter as the
`session_keys` and `candidates` parameters.  The encrypted candidate
list of the `created` reply is part of the codec and not modelled beyond
the fact that the reply is sent. -/
def on_create (s : TState) (now : Int) (circuit_id : Nat) (cand_addr : Addr)
    (session_keys : SessionKeys) (candidates : List Nat) : TState × List OutMsg :=
  if max_relays_or_exits ≤ s.relay_from_to.length + s.exit_sockets.length then
    (s, [])
  else if dictContains s.created_requests circuit_id then
    (s, [])
  else
    let _ := candidates
    let s1 := { s with directions := dictInsert s.directions circuit_id EXIT_NODE }
    let s2 := { s1 with relay_session_keys := dictInsert s1.relay_session_keys circuit_id session_keys }
    let s3 := { s2 with created_requests := dictInsert s2.created_requests circuit_id cand_addr }
    let s4 := { s3 with exit_sockets := (dictInsert s3.exit_sockets circuit_id
      { circuit_id := circuit_id, sock_addr := cand_addr, port := none,
        ips := [], bytes_up := 0, bytes_down := 0, creation_time := now }) }
    (s4, [OutMsg.created cand_addr circuit_id])

/-- The black-box AEAD facade `TunnelCrypto` (`crypto/tunnelcrypto.py`,
treated as an external primitive set by the spec):
`encrypt_str(content, key, salt, salt_explicit)` and
`decrypt_str(content, key, salt)` (the explicit salt travels inside the
ciphertext). -/
structure CryptoModel where
  encrypt_str : Content → Nat → Nat → Nat → Content
  decrypt_str : Content → Nat → Nat → Content

/-- One iteration of the hop loop of `crypto_out` (source lines
1193-1195): encrypt with `get_session_keys(hop.session_keys, EXIT_NODE)`
and record the hop with its bumped salt counter (the loop runs over
`reversed(circuit.hops)`, and consing rebuilds the list in original
order). -/
def cryptoOutStep (M : CryptoModel) (p : Content × List Hop) (hop : Hop) :
    Content × List Hop :=
  let r := get_session_keys hop.session_keys EXIT_NODE
  (M.encrypt_str p.1 r.1.1 r.1.2.1 r.1.2.2, { hop with session_keys := r.2 } :: p.2)

/-- Source `TunnelCommunity.crypto_out` (source lines 1187-1201).  On the
initiator's own circuit: for data on an RP/RENDEZVOUS circuit first an
`hs_session_keys` layer with `direction = int(ctype == CIRCUIT_TYPE_RP)`,
then one `EXIT_NODE` layer per hop in reversed hop order.  Otherwise, with
relay session keys for the id, a single `ORIGINATOR` layer.  A
`CryptoException` is `none`.  The state is returned because
`get_session_keys` bumps the explicit salts in place. -/
def crypto_out (M : CryptoModel) (s : TState) (circuit_id : Nat)
    (content : Content) (is_data : Bool) : Option (Content × TState) :=
  match dictLookup s.circuits circuit_id with
  | some circuit =>
    let hsr : Content × SessionKeys :=
      if is_data ∧ (circuit.ctype = CType.RENDEZVOUS ∨ circuit.ctype = CType.RP) then
        let direction := if circuit.ctype = CType.RP then 1 else 0
        let r := get_session_keys circuit.hs_session_keys direction
        (M.encrypt_str content r.1.1 r.1.2.1 r.1.2.2, r.2)
      else (content, circuit.hs_session_keys)
    let res := circuit.hops.reverse.foldl (cryptoOutStep M) (hsr.1, [])
    some (res.1, { s with circuits := (dictInsert s.circuits circuit_id
      { circuit with hs_session_keys := hsr.2, hops := res.2 }) })
  | none =>
    match dictLookup s.relay_session_keys circuit_id with
    | some keys =>
      let r := get_session_keys keys ORIGINATOR
      some (M.encrypt_str content r.1.1 r.1.2.1 r.1.2.2,
        { s with relay_session_keys := dictInsert s.relay_session_keys circuit_id r.2 })
    | none => none

/-- Source `TunnelCommunity.crypto_in` (source lines 1203-1223).  On an own
circuit with at least one hop: peel one `ORIGINATOR` layer per hop in
forward order, then for data on an RP/RENDEZVOUS circuit peel the
`hs_session_keys` layer with `direction = int(ctype != CIRCUIT_TYPE_RP)`
and `direction_salt = direction + 2`.  Otherwise, with relay session keys
for the id, peel a single `EXIT_NODE` layer.  Decryption reads the stored
salts without bumping them, so no state is returned. -/
def crypto_in (M : CryptoModel) (s : TState) (circuit_id : Nat)
    (content : Content) (is_data : Bool) : Option Content :=
  match dictLookup s.circuits circuit_id with
  | some circuit =>
    if 0 < circuit.hops.length then
      let c1 := circuit.hops.foldl
        (fun c hop => M.decrypt_str c (keyAt hop.session_keys ORIGINATOR)
          (keyAt hop.session_keys ORIGINATOR_SALT)) content
      let c2 :=
        if is_data ∧ (circuit.ctype = CType.RENDEZVOUS ∨ circuit.ctype = CType.RP) then
          let direction := if circuit.ctype ≠ CType.RP then 1 else 0
          M.decrypt_str c1 (keyAt circuit.hs_session_keys direction)
            (keyAt circuit.hs_session_keys (direction + 2))
        else c1
      some c2
    else
      match dictLookup s.relay_session_keys circuit_id with
      | some keys =>
        some (M.decrypt_str content (keyAt keys EXIT_NODE) (keyAt keys EXIT_NODE_SALT))
      | none => none
  | none =>
    match dictLookup s.relay_session_keys circuit_id with
    | some keys =>
      some (M.decrypt_str content (keyAt keys EXIT_NODE) (keyAt keys EXIT_NODE_SALT))
    | none => none

/-- Source `TunnelCommunity.crypto_relay` (source lines 1225-1238): by
`directions[circuit_id]`, either add an `ORIGINATOR` layer (relaying
toward the originator) or peel an `EXIT_NODE` layer (relaying toward the
exit).  A missing direction (Python `KeyError`) or key, or an unknown
direction value (`CryptoException`), is `none`. -/
def crypto_relay (M : CryptoModel) (s : TState) (circuit_id : Nat)
    (content : Content) : Option (Content × TState) :=
  match dictLookup s.directions circuit_id with
  | none => none
  | some direction =>
    if direction = ORIGINATOR then
      match dictLookup s.relay_session_keys circuit_id with
      | some keys =>
        let r := get_session_keys keys ORIGINATOR
        some (M.encrypt_str content r.1.1 r.1.2.1 r.1.2.2,
          { s with relay_session_keys := dictInsert s.relay_session_keys circuit_id r.2 })
      | none => none
    else if direction = EXIT_NODE then
      match dictLookup s.relay_session_keys circuit_id with
      | some keys =>
        some (M.decrypt_str content (keyAt keys EXIT_NODE) (keyAt keys EXIT_NODE_SALT), s)
      | none => none
    else none

/-- Source `TunnelCommunity.is_relay` (source lines 653-654). -/
def is_relay (s : TState) (circuit_id : Nat) : Bool :=
  decide (0 < circuit_id) && dictContains s.relay_from_to circuit_id &&
    !(decide (circuit_id ∈ s.waiting_for))

/-- A tunnel frame after the codec split (`split_encrypted_packet` /
`swap_circuit_id` of `conversion.py` are a pure codec per the spec §6):
the embedded circuit id, the plaintext header, and the encrypted tail. -/
structure Packet where
  circuit_id : Nat
  plaintext : Content
  encrypted : Content
  deriving DecidableEq, Repr

/-- Byte length of a frame. -/
def packetLen (p : Packet) : Nat := p.plaintext.length + p.encrypted.length

/-- Source `TunnelCommunity.relay_packet` (source lines 699-725).  Returns the
Python boolean (`False` means the caller processes the packet locally),
the updated state, and the forwarded frame if any.  On a
`CryptoException` the function returns `False` after the `this_relay`
counters were already updated, exactly as in the source. -/
def relay_packet (M : CryptoModel) (s : TState) (now : Int) (circuit_id : Nat)
    (packet : Packet) : Bool × TState × List (Addr × Packet) :=
  if is_relay s circuit_id then
    match dictLookup s.relay_from_to circuit_id with
    | none => (false, s, [])
    | some next_relay =>
      let s1 :=
        match dictLookup s.relay_from_to next_relay.circuit_id with
        | some this_relay =>
          { s with relay_from_to := (dictInsert s.relay_from_to next_relay.circuit_id
              { this_relay with last_incoming := now,
                                bytes_down := this_relay.bytes_down + packetLen packet }) }
        | none => s
      match
        (if next_relay.rendezvous_relay then
          match crypto_in M s1 circuit_id packet.encrypted false with
          | some d => crypto_out M s1 next_relay.circuit_id d false
          | none => none
        else crypto_relay M s1 circuit_id packet.encrypted)
      with
      | none => (false, s1, [])
      | some (enc, s2) =>
        let newPacket : Packet :=
          { circuit_id := next_relay.circuit_id, plaintext := packet.plaintext,
            encrypted := enc }
        let s3 :=
          match dictLookup s2.relay_from_to circuit_id with
          | some nr2 =>
            { s2 with relay_from_to := (dictInsert s2.relay_from_to circuit_id
                { nr2 with bytes_up := nr2.bytes_up + packetLen newPacket }) }
          | none => s2
        (true, s3, [(next_relay.sock_addr, newPacket)])
  else (false, s, [])

/-- Wrap a session-key sextuple as a verified hop. -/
def hopOfKeys (q : SessionKeys) : Hop := { session_keys := q, address := (0, 0) }

/-- A ready circuit whose hops carry the given key sextuples. -/
def mkCircuit (cid : Nat) (t : CType) (qs : List SessionKeys) (H : SessionKeys) :
    Circuit :=
  { circuit_id := cid, goal_hops := qs.length, hops := qs.map hopOfKeys,
    first_hop := (0, 0), ctype := t, creation_time := 0, last_incoming := 0,
    bytes_up := 0, bytes_down := 0, hs_session_keys := H }

/-- The node state of a circuit initiator: `circuits[cid]` holds the
circuit, nothing else is populated. -/
def initiatorState (cid : Nat) (t : CType) (qs : List SessionKeys)
    (H : SessionKeys) : TState :=
  { emptyState with circuits := [(cid, mkCircuit cid t qs H)] }

/-- The node state of a relay/exit endpoint for one forwarded circuit id:
`relay_session_keys[cid]` holds the sextuple installed at `create` time
and `directions[cid]` the direction tag. -/
def relayEndpointState (cid : Nat) (q : SessionKeys) (dir : Nat) : TState :=
  { emptyState with relay_session_keys := [(cid, q)], directions := [(cid, dir)] }

/-- A chain of middle relays, each applying `crypto_relay` at its own node
state (direction tag `dir`, key sextuple from the list) to the travelling
content. -/
def relayChain (M : CryptoModel) (dir : Nat) (qs : List SessionKeys)
    (content : Content) : Option Content :=
  match qs with
  | [] => some content
  | q :: rest =>
    match crypto_relay M (relayEndpointState 1 q dir) 1 content with
    | some r => relayChain M dir rest r.1
    | none => none

/-- Pure view of a stack of layers added with key index `d` of each
sextuple (salt at `d + 2`, explicit salt at `d + 4`, bumped before use),
applied in reversed list order so that the head of the list is the
outermost layer. -/
def layerPure (M : CryptoModel) (d : Nat) (qs : List SessionKeys)
    (content : Content) : Content :=
  qs.reverse.foldl
    (fun c q => M.encrypt_str c (keyAt q d) (keyAt q (d + 2)) (keyAt q (d + 4) + 1))
    content

/-- Pure view of peeling those layers in forward list order. -/
def peelPure (M : CryptoModel) (d : Nat) (qs : List SessionKeys)
    (content : Content) : Content :=
  qs.foldl (fun c q => M.decrypt_str c (keyAt q d) (keyAt q (d + 2))) content

/-- A concrete crypto model used to evaluate the theorems on concrete
inputs: encryption pushes the key onto the content, decryption pops one
element. -/
def M0 : CryptoModel :=
  { encrypt_str := fun content key _salt _se => key :: content,
    decrypt_str := fun content _key _salt => content.drop 1 }

/-- Sample sextuples for concrete evaluations. -/
def qK : SessionKeys := ⟨11, 12, 13, 14, 0, 0⟩

def qK2 : SessionKeys := ⟨21, 22, 23, 24, 0, 0⟩

def qH : SessionKeys := ⟨31, 32, 33, 34, 0, 0⟩

/-- Concrete relay table for the circuit-id allocation bug: circuit id 7 is
an existing `relay_from_to` key whose route goes to the neighbour at
address `(9, 9)`. -/
def rftC2 : List (Nat × RelayRoute) := [(7, { circuit_id := 5, sock_addr := (9, 9) })]

/-- Concrete exit socket for the sweeper counterexample: created at time 0,
never any traffic. -/
def exitC3 : ExitSock :=
  { circuit_id := 5, sock_addr := (1, 1), port := none, ips := [],
    bytes_up := 0, bytes_down := 0, creation_time := 0 }

/-- Node state holding only that exit socket. -/
def sC3 : TState := { emptyState with exit_sockets := [(5, exitC3)] }

/-- Concrete relay pair for the destroy-authorization counterexample:
ids 1 and 2 relay for each other; the declared relay peers are at
`(10, 10)` and `(20, 20)`. -/
def sC4 : TState :=
  { emptyState with
    relay_from_to := [(1, { circuit_id := 2, sock_addr := (10, 10) }),
                      (2, { circuit_id := 1, sock_addr := (20, 20) })],
    relay_session_keys := [(1, qK), (2, qK)] }

/-- Concrete state for the `is_relay` counterexample: circuit id 0 is a
`relay_from_to` key with direction and keys installed, and is not in
`waiting_for`. -/
def sC5 : TState :=
  { emptyState with
    relay_from_to := [(0, { circuit_id := 9, sock_addr := (10, 10) }),
                      (9, { circuit_id := 0, sock_addr := (11, 11) })],
    directions := [(0, EXIT_NODE)],
    relay_session_keys := [(0, qK)] }

/-- Concrete frame carrying circuit id 0. -/
def pC5 : Packet := { circuit_id := 0, plaintext := [1], encrypted := [2] }

/-- A node state already holding `max_relays_or_exits` exit sockets. -/
def sC6 : TState :=
  { emptyState with
    exit_sockets := (List.range max_relays_or_exits).map
      (fun i => (i, { circuit_id := i, sock_addr := (1, 1), port := none,
                      ips := [], bytes_up := 0, bytes_down := 0,
                      creation_time := 0 })) }

/-- A latent (never enabled) exit socket with a session-key entry. -/
def sC9 : TState :=
  { emptyState with
    exit_sockets := [(3, { circuit_id := 3, sock_addr := (2, 2), port := none,
                           ips := [], bytes_up := 0, bytes_down := 0,
                           creation_time := 0 })],
    relay_session_keys := [(3, qK)] }

/-- The same state with the socket enabled (a port is bound). -/
def sC9e : TState :=
  { emptyState with
    exit_sockets := [(3, { circuit_id := 3, sock_addr := (2, 2), port := some 40000,
                           ips := [], bytes_up := 0, bytes_down := 0,
                           creation_time := 0 })],
    relay_session_keys := [(3, qK)] }

/-- A well-formed relay state for circuit id 1 (non-rendezvous route,
direction and session keys installed). -/
def sC5w : TState :=
  { emptyState with
    relay_from_to := [(1, { circuit_id := 9, sock_addr := (10, 10) }),
                      (9, { circuit_id := 1, sock_addr := (11, 11) })],
    directions := [(1, EXIT_NODE)],
    relay_session_keys := [(1, qK)] }

theorem dictContains_of_lookup {α : Type} {m : List (Nat × α)} {k : Nat} {v : α}
    (h : dictLookup m k = some v) : dictContains m k = true := by
  simp [dictContains, h]

theorem lookup_none_of_contains_false {α : Type} {m : List (Nat × α)} {k : Nat}
    (h : dictContains m k = false) : dictLookup m k = none := by
  cases hl : dictLookup m k with
  | none => rfl
  | some v => rw [dictContains, hl] at h; simp at h

theorem ipsGet_insert_self (m : List (Nat × Int)) (k : Nat) (v : Int) :
    ipsGet (dictInsert m k v) k = v := by
  induction m with
  | nil => simp [ipsGet, dictInsert, dictLookup]
  | cons kv rest ih =>
    by_cases h : kv.1 = k
    · simp [dictInsert, h, ipsGet, dictLookup]
    · simpa [dictInsert, h, ipsGet, dictLookup] using ih

theorem check_neg {ips : List (Nat × Int)} {ip : Nat} (inc : Bool)
    (h : ipsGet ips ip < 0) :
    check_num_packets ips ip inc = { allowed := true, ips := ips, destroyed := false } := by
  simp [check_num_packets, h]

theorem check_out_inc {ips : List (Nat × Int)} {ip : Nat}
    (h0 : 0 ≤ ipsGet ips ip) (h1 : ipsGet ips ip < (max_packets_without_reply : Int)) :
    check_num_packets ips ip false =
      { allowed := true, ips := dictInsert ips ip (ipsGet ips ip + 1), destroyed := false } := by
  have hn : ¬ ipsGet ips ip < 0 := not_lt.mpr h0
  have hg : ¬ ipsGet ips ip ≥ (max_packets_without_reply : Int) := not_le.mpr h1
  simp [check_num_packets, hn, hg]

theorem check_in_reply {ips : List (Nat × Int)} {ip : Nat}
    (h0 : 0 ≤ ipsGet ips ip) (h1 : ipsGet ips ip ≤ (max_packets_without_reply : Int)) :
    check_num_packets ips ip true =
      { allowed := true, ips := dictInsert ips ip (-1), destroyed := false } := by
  have hn : ¬ ipsGet ips ip < 0 := not_lt.mpr h0
  have hg : ¬ ipsGet ips ip ≥ (max_packets_without_reply : Int) + 1 := by omega
  simp [check_num_packets, hn, hg]

theorem sendStream_counter (ip : Nat) :
    ∀ n, n ≤ max_packets_without_reply → ipsGet (sendStream ip n) ip = (n : Int) := by
  intro n
  induction n with
  | zero => intro _; rfl
  | succ m ih =>
    intro hle
    have hv := ih (Nat.le_of_succ_le hle)
    have h0 : 0 ≤ ipsGet (sendStream ip m) ip := by
      rw [hv]; exact Int.natCast_nonneg m
    have h1 : ipsGet (sendStream ip m) ip < (max_packets_without_reply : Int) := by
      rw [hv]; exact_mod_cast Nat.lt_of_succ_le hle
    show ipsGet (check_num_packets (sendStream ip m) ip false).ips ip = ((m + 1 : Nat) : Int)
    rw [check_out_inc h0 h1]
    show ipsGet (dictInsert (sendStream ip m) ip (ipsGet (sendStream ip m) ip + 1)) ip
      = ((m + 1 : Nat) : Int)
    rw [ipsGet_insert_self, hv]
    push_cast
    ring

theorem check_51 (ip : Nat) :
    check_num_packets (sendStream ip max_packets_without_reply) ip false =
      { allowed := false, ips := sendStream ip max_packets_without_reply,
        destroyed := true } := by
  have hv := sendStream_counter ip max_packets_without_reply le_rfl
  have hn : ¬ ipsGet (sendStream ip max_packets_without_reply) ip < 0 := by
    rw [hv]; norm_num
  have hg : ipsGet (sendStream ip max_packets_without_reply) ip ≥
      (max_packets_without_reply : Int) := by rw [hv]
  simp [check_num_packets, hn, hg]

theorem run_checks_neg (ip : Nat) :
    ∀ (incs : List Bool) (ips : List (Nat × Int)),
      ipsGet ips ip < 0 → run_checks ips ip incs = true := by
  intro incs
  induction incs with
  | nil => intro ips _; rfl
  | cons inc rest ih =>
    intro ips h
    simp [run_checks, check_neg inc h, ih ips h]

/-- Claim C1: for every exit socket and destination IP, the abuse counter
starts at 0 and is incremented on each outbound packet; after
`max_packets_without_reply` (50) outbound packets with no inbound reply,
the next outbound packet destroys the exit socket and is dropped; an
inbound packet sets the counter to -1, after which `check_num_packets`
permits unlimited traffic to and from that IP forever. -/
theorem claim_C1_exit_abuse_counter (ip : Nat) (ips : List (Nat × Int))
    (incoming : Bool) (n : Nat) (incs : List Bool) :
    (ipsGet [] ip = 0) ∧
    (0 ≤ ipsGet ips ip → ipsGet ips ip < (max_packets_without_reply : Int) →
      check_num_packets ips ip false =
        { allowed := true, ips := dictInsert ips ip (ipsGet ips ip + 1),
          destroyed := false }) ∧
    (n ≤ max_packets_without_reply → ipsGet (sendStream ip n) ip = (n : Int)) ∧
    (n < max_packets_without_reply →
      (check_num_packets (sendStream ip n) ip false).allowed = true) ∧
    (check_num_packets (sendStream ip max_packets_without_reply) ip false =
      { allowed := false, ips := sendStream ip max_packets_without_reply,
        destroyed := true }) ∧
    (0 ≤ ipsGet ips ip → ipsGet ips ip ≤ (max_packets_without_reply : Int) →
      check_num_packets ips ip true =
        { allowed := true, ips := dictInsert ips ip (-1), destroyed := false }) ∧
    (ipsGet ips ip < 0 →
      check_num_packets ips ip incoming =
        { allowed := true, ips := ips, destroyed := false }) ∧
    (ipsGet ips ip < 0 → run_checks ips ip incs = true) := by
  refine ⟨rfl, ?_, ?_, ?_, check_51 ip, ?_, ?_, ?_⟩
  · intro h0 h1; exact check_out_inc h0 h1
  · intro hn; exact sendStream_counter ip n hn
  · intro hlt
    have h0 : 0 ≤ ipsGet (sendStream ip n) ip := by
      rw [sendStream_counter ip n (Nat.le_of_lt hlt)]; exact Int.natCast_nonneg n
    have h1 : ipsGet (sendStream ip n) ip < (max_packets_without_reply : Int) := by
      rw [sendStream_counter ip n (Nat.le_of_lt hlt)]; exact_mod_cast hlt
    rw [check_out_inc h0 h1]
  · intro h0 h1; exact check_in_reply h0 h1
  · intro h; exact check_neg incoming h
  · intro h; exact run_checks_neg ip incs ips h

/-- Witness for claim C1: a run at concrete inputs — the fresh counter for
IP 3 reads 0, the 51st outbound packet after 50 unanswered ones is
dropped and destroys the socket, and once the counter reads -1 every
further packet is allowed. -/
theorem claim_C1_witness :
    ipsGet ([] : List (Nat × Int)) 3 = 0 ∧
    check_num_packets (sendStream 3 max_packets_without_reply) 3 false =
      { allowed := false, ips := sendStream 3 max_packets_without_reply,
        destroyed := true } ∧
    run_checks [(3, -1)] 3 [true, false, false] = true := by
  have h := claim_C1_exit_abuse_counter 3 [(3, -1)] true 50 [true, false, false]
  exact ⟨h.1, h.2.2.2.2.1, h.2.2.2.2.2.2.2 (by decide)⟩

/-- Claim C2 (code-bug evidence): `_generate_circuit_id` is meant to
reject ids colliding with a `relay_from_to` entry for the neighbour, but
its membership test compares the tuple `(neighbour, circuit_id)` against
a dict keyed by plain circuit ids, so it never fires: with the first
random sample 7, the allocator returns 7 even though 7 is a
`relay_from_to` key whose route goes to that very neighbour.  Collisions
with `circuits` keys are rejected by resampling, as the last conjunct
shows. -/
theorem claim_C2_collision_check_dead :
    generate_circuit_id [7] [] rftC2 (some (9, 9)) = some 7 ∧
    dictContains rftC2 7 = true ∧
    (dictLookup rftC2 7).map RelayRoute.sock_addr = some (9, 9) ∧
    generate_circuit_id [7, 8] [(7, ({} : Circuit))] [] none = some 8 := by
  exact ⟨rfl, rfl, rfl, rfl⟩

theorem dictRemove_of_absent {α : Type} {m : List (Nat × α)} {k : Nat}
    (h : dictLookup m k = none) : dictRemove m k = m := by
  induction m with
  | nil => rfl
  | cons kv rest ih =>
    by_cases hk : kv.1 = k
    · rw [dictLookup, if_pos hk] at h; simp at h
    · rw [dictLookup, if_neg hk] at h
      simp only [dictRemove, if_neg hk, ih h]

theorem dictLookup_dictRemove_self {α : Type} (m : List (Nat × α)) (k : Nat) :
    dictLookup (dictRemove m k) k = none := by
  induction m with
  | nil => rfl
  | cons kv rest ih =>
    by_cases hk : kv.1 = k
    · simp only [dictRemove, if_pos hk]; exact ih
    · simp only [dictRemove, if_neg hk, dictLookup, ih]

theorem dictLookup_dictRemove_ne {α : Type} (m : List (Nat × α)) {j k : Nat}
    (h : k ≠ j) : dictLookup (dictRemove m j) k = dictLookup m k := by
  induction m with
  | nil => rfl
  | cons kv rest ih =>
    by_cases h1 : kv.1 = j
    · have h2 : ¬ kv.1 = k := fun he => h (he.symm.trans h1)
      simp only [dictRemove, if_pos h1, dictLookup, if_neg h2, ih]
    · by_cases h2 : kv.1 = k
      · simp only [dictRemove, if_neg h1, dictLookup, if_pos h2]
      · simp only [dictRemove, if_neg h1, dictLookup, if_neg h2, ih]

theorem dictContains_dictRemove {α : Type} (m : List (Nat × α)) (j k : Nat) :
    dictContains (dictRemove m j) k = (!decide (k = j) && dictContains m k) := by
  by_cases h : k = j
  · subst h; simp [dictContains, dictLookup_dictRemove_self]
  · simp [dictContains, dictLookup_dictRemove_ne m h, h]

theorem mem_dictRemove {α : Type} :
    ∀ (m : List (Nat × α)) (j : Nat) (kv : Nat × α),
      kv ∈ dictRemove m j → kv ∈ m ∧ kv.1 ≠ j := by
  intro m j
  induction m with
  | nil => intro kv h; simp [dictRemove] at h
  | cons a rest ih =>
    intro kv h
    by_cases h1 : a.1 = j
    · rw [dictRemove, if_pos h1] at h
      rcases ih kv h with ⟨hm, hne⟩
      exact ⟨List.mem_cons_of_mem a hm, hne⟩
    · rw [dictRemove, if_neg h1] at h
      rcases List.mem_cons.mp h with he | ht
      · refine ⟨?_, ?_⟩
        · rw [he]; exact List.mem_cons_self a rest
        · rw [he]; exact h1
      · rcases ih kv ht with ⟨hm, hne⟩
        exact ⟨List.mem_cons_of_mem a hm, hne⟩

theorem contains_foldl_dictRemove {α : Type} :
    ∀ (l : List Nat) (m : List (Nat × α)) (k : Nat),
      dictContains (l.foldl dictRemove m) k = (dictContains m k && !decide (k ∈ l)) := by
  intro l
  induction l with
  | nil => intro m k; simp
  | cons a t ih =>
    intro m k
    rw [List.foldl_cons, ih, dictContains_dictRemove]
    by_cases h : k = a
    · subst h; simp
    · simp [h]

theorem mem_foldl_dictRemove {α : Type} :
    ∀ (l : List Nat) (m : List (Nat × α)) (kv : Nat × α),
      kv ∈ l.foldl dictRemove m → kv ∈ m ∧ kv.1 ∉ l := by
  intro l
  induction l with
  | nil => intro m kv h; exact ⟨h, by simp⟩
  | cons a t ih =>
    intro l kv h
    rw [List.foldl_cons] at h
    rcases ih (dictRemove l a) kv h with ⟨hm, hnt⟩
    rcases mem_dictRemove l a kv hm with ⟨hm2, hne⟩
    refine ⟨hm2, fun hc => ?_⟩
    rcases List.mem_cons.mp hc with h1 | h1
    · exact hne h1
    · exact hnt h1

theorem mem_mirrorKeys {rft : List (Nat × RelayRoute)} {c : Nat}
    {kv : Nat × RelayRoute} (hm : kv ∈ rft) (hc : kv.2.circuit_id = c) :
    kv.1 ∈ mirrorKeys rft c := by
  unfold mirrorKeys
  exact List.mem_map_of_mem Prod.fst (List.mem_filter.mpr ⟨hm, by simp [hc]⟩)

theorem mirrorKeys_eq_nil {rft : List (Nat × RelayRoute)} {c : Nat}
    (h : ∀ kv ∈ rft, kv.2.circuit_id ≠ c) : mirrorKeys rft c = [] := by
  unfold mirrorKeys
  rw [List.filter_eq_nil.mpr (fun kv hkv => by simp [h kv hkv])]
  rfl

theorem remove_circuit_circuits_cleared (s : TState) (c : Nat) (d : Bool) :
    dictContains (remove_circuit s c d).1.circuits c = false := by
  cases h : dictContains s.circuits c with
  | true =>
    unfold remove_circuit
    rw [if_pos h]
    simp [dictContains, dictLookup_dictRemove_self]
  | false =>
    unfold remove_circuit
    rw [if_neg (by simp [h])]
    exact h

theorem remove_circuit_directions (s : TState) (c : Nat) (d : Bool) :
    (remove_circuit s c d).1.directions = s.directions := by
  cases h : dictContains s.circuits c <;> simp [remove_circuit, h]

theorem remove_circuit_exits (s : TState) (c : Nat) (d : Bool) :
    (remove_circuit s c d).1.exit_sockets = s.exit_sockets := by
  cases h : dictContains s.circuits c <;> simp [remove_circuit, h]

theorem relayDeleteStep_rft (s : TState) (cid : Nat) :
    (relayDeleteStep s cid).relay_from_to = dictRemove s.relay_from_to cid := by
  cases h : dictContains s.relay_from_to cid with
  | true => simp [relayDeleteStep, h]
  | false =>
    unfold relayDeleteStep
    rw [if_neg (by simp [h])]
    exact (dictRemove_of_absent (lookup_none_of_contains_false h)).symm

theorem relayDeleteStep_directions (s : TState) (cid : Nat) :
    (relayDeleteStep s cid).directions = s.directions := by
  cases h : dictContains s.relay_from_to cid <;> simp [relayDeleteStep, h]

theorem relayDeleteStep_exits (s : TState) (cid : Nat) :
    (relayDeleteStep s cid).exit_sockets = s.exit_sockets := by
  cases h : dictContains s.relay_from_to cid <;> simp [relayDeleteStep, h]

theorem relayDeleteStep_absent {s : TState} {cid : Nat}
    (h : dictContains s.relay_from_to cid = false) : relayDeleteStep s cid = s := by
  simp [relayDeleteStep, h]

theorem foldl_preserves {β γ : Type} (f : TState → β → TState) (proj : TState → γ)
    (hf : ∀ s b, proj (f s b) = proj s) :
    ∀ (l : List β) (s : TState), proj (l.foldl f s) = proj s := by
  intro l
  induction l with
  | nil => intro s; rfl
  | cons b t ih => intro s; rw [List.foldl_cons, ih, hf]

theorem foldl_relayDeleteStep_rft :
    ∀ (l : List Nat) (s : TState),
      (l.foldl relayDeleteStep s).relay_from_to = l.foldl dictRemove s.relay_from_to := by
  intro l
  induction l with
  | nil => intro s; rfl
  | cons a t ih =>
    intro s
    rw [List.foldl_cons, List.foldl_cons, ih, relayDeleteStep_rft]

theorem remove_relay_rft (s : TState) (c : Nat) (d : Bool)
    (g : Option (Nat × Addr)) :
    (remove_relay s c d g true).1.relay_from_to =
      (c :: mirrorKeys s.relay_from_to c).foldl dictRemove s.relay_from_to :=
  foldl_relayDeleteStep_rft _ s

theorem remove_relay_clears (s : TState) (c : Nat) (d : Bool)
    (g : Option (Nat × Addr)) :
    dictContains (remove_relay s c d g true).1.relay_from_to c = false ∧
    ∀ kv ∈ (remove_relay s c d g true).1.relay_from_to, kv.2.circuit_id ≠ c := by
  constructor
  · rw [remove_relay_rft, contains_foldl_dictRemove]
    simp
  · intro kv hkv
    rw [remove_relay_rft] at hkv
    rcases mem_foldl_dictRemove _ _ kv hkv with ⟨hm, hnl⟩
    intro hcid
    exact hnl (List.mem_cons_of_mem c (mem_mirrorKeys hm hcid))

theorem destroy_relay_single_absent (s : TState) (c : Nat) (r : Nat)
    (g : Option (Nat × Addr)) (h : dictLookup s.relay_from_to c = none) :
    destroy_relay s [c] r g = [] := by
  cases g <;> simp [destroy_relay, h]

theorem remove_relay_noop (s : TState) (c : Nat) (d : Bool) (g : Option (Nat × Addr))
    (hc : dictContains s.relay_from_to c = false)
    (hm : ∀ kv ∈ s.relay_from_to, kv.2.circuit_id ≠ c) :
    remove_relay s c d g true = (s, []) := by
  have hmk : mirrorKeys s.relay_from_to c = [] := mirrorKeys_eq_nil hm
  have hlk : dictLookup s.relay_from_to c = none := lookup_none_of_contains_false hc
  unfold remove_relay
  rw [if_pos rfl, hmk]
  cases d with
  | true =>
    simp [destroy_relay_single_absent s c 0 g hlk, relayDeleteStep_absent hc]
  | false =>
    simp [relayDeleteStep_absent hc]

theorem remove_exit_socket_exits (s : TState) (c : Nat) (d : Bool) :
    (remove_exit_socket s c d).1.exit_sockets = dictRemove s.exit_sockets c := by
  cases hl : dictLookup s.exit_sockets c with
  | none => simp [remove_exit_socket, hl, dictRemove_of_absent hl]
  | some e =>
    cases he : e.enabled <;>
      simp [remove_exit_socket, hl, he] <;>
      cases hk : dictContains s.relay_session_keys c <;> simp [hk]

theorem remove_exit_socket_directions (s : TState) (c : Nat) (d : Bool) :
    (remove_exit_socket s c d).1.directions = s.directions := by
  cases hl : dictLookup s.exit_sockets c with
  | none => simp [remove_exit_socket, hl]
  | some e =>
    cases he : e.enabled <;>
      simp [remove_exit_socket, hl, he] <;>
      cases hk : dictContains s.relay_session_keys c <;> simp [hk]

theorem remove_exit_socket_absent (s : TState) (c : Nat) (d : Bool)
    (h : dictLookup s.exit_sockets c = none) : remove_exit_socket s c d = (s, []) := by
  simp [remove_exit_socket, h]

theorem remove_relay_directions (s : TState) (c : Nat) (d : Bool)
    (g : Option (Nat × Addr)) (b : Bool) :
    (remove_relay s c d g b).1.directions = s.directions :=
  foldl_preserves relayDeleteStep TState.directions relayDeleteStep_directions _ s

/-- Claim C10: none of `remove_circuit`, `remove_relay`, `remove_exit_socket`
deletes the `directions` entry of the removed circuit id, so the domain of
the `directions` map only grows: once set, `directions[c]` stays defined
after the circuit, relay, or exit socket for `c` has been removed. -/
theorem claim_C10_directions_monotone (s : TState) (c : Nat) (d : Bool)
    (g : Option (Nat × Addr)) (b : Bool) :
    (remove_circuit s c d).1.directions = s.directions ∧
    (remove_relay s c d g b).1.directions = s.directions ∧
    (remove_exit_socket s c d).1.directions = s.directions :=
  ⟨remove_circuit_directions s c d, remove_relay_directions s c d g b,
   remove_exit_socket_directions s c d⟩

/-- Claim C8: teardown is idempotent — after a first `remove_circuit`,
`remove_relay` or `remove_exit_socket` for circuit id `c`, calling the
same removal again leaves the node state unchanged and sends nothing
(a no-op apart from logging). -/
theorem claim_C8_teardown_idempotent (s : TState) (c : Nat) (d1 d2 : Bool)
    (g1 g2 : Option (Nat × Addr)) :
    remove_circuit (remove_circuit s c d1).1 c d2 =
      ((remove_circuit s c d1).1, [], false) ∧
    remove_relay (remove_relay s c d1 g1 true).1 c d2 g2 true =
      ((remove_relay s c d1 g1 true).1, []) ∧
    remove_exit_socket (remove_exit_socket s c d1).1 c d2 =
      ((remove_exit_socket s c d1).1, []) := by
  refine ⟨?_, ?_, ?_⟩
  · have h := remove_circuit_circuits_cleared s c d1
    rw [remove_circuit, if_neg (by simp [h])]
  · rcases remove_relay_clears s c d1 g1 with ⟨hc, hm⟩
    exact remove_relay_noop _ c d2 g2 hc hm
  · have h : dictLookup (remove_exit_socket s c d1).1.exit_sockets c = none := by
      rw [remove_exit_socket_exits, dictLookup_dictRemove_self]
    exact remove_exit_socket_absent _ c d2 h

/-- Claim C9: removing an exit socket that was never enabled (no UDP port
bound) removes it from `exit_sockets` but leaves `relay_session_keys`
entirely unchanged; the session keys for the id are deleted only when the
socket had been enabled. -/
theorem claim_C9_latent_exit_keeps_keys (s : TState) (c : Nat) (e : ExitSock)
    (d : Bool) (he : dictLookup s.exit_sockets c = some e) :
    (e.enabled = false →
      remove_exit_socket s c d =
        ({ s with exit_sockets := dictRemove s.exit_sockets c },
         if d then destroy_exit_socket s c 0 else [])) ∧
    (e.enabled = true →
      (remove_exit_socket s c d).1.relay_session_keys =
        dictRemove s.relay_session_keys c) := by
  constructor
  · intro hen
    unfold remove_exit_socket
    rw [he]
    simp [hen]
  · intro hen
    unfold remove_exit_socket
    rw [he]
    cases hk : dictContains s.relay_session_keys c with
    | true => simp [hen, hk]
    | false =>
      simp only [hen, hk]
      simp
      exact (dictRemove_of_absent (lookup_none_of_contains_false hk)).symm

/-- Witness for claim C9 at concrete states: a latent socket is popped with
the session keys kept; an enabled socket is popped with the session keys
deleted. -/
theorem claim_C9_witness :
    remove_exit_socket sC9 3 false =
      ({ sC9 with exit_sockets := dictRemove sC9.exit_sockets 3 }, []) ∧
    (remove_exit_socket sC9e 3 false).1.relay_session_keys =
      dictRemove sC9e.relay_session_keys 3 := by
  constructor
  · exact (claim_C9_latent_exit_keeps_keys sC9 3 _ false rfl).1 rfl
  · exact (claim_C9_latent_exit_keeps_keys sC9e 3 _ false rfl).2 rfl

/-- Claim C6: a create message received while
`|relay_from_to| + |exit_sockets| >= max_relays_or_exits` is ignored with
no state change — no `directions`, `relay_session_keys`,
`CreatedRequestCache` or exit-socket entry is installed and no `created`
reply is sent. -/
theorem claim_C6_create_flood_ignored (s : TState) (now : Int) (circuit_id : Nat)
    (cand : Addr) (keys : SessionKeys) (cands : List Nat)
    (hfull : max_relays_or_exits ≤ s.relay_from_to.length + s.exit_sockets.length) :
    on_create s now circuit_id cand keys cands = (s, []) := by
  unfold on_create
  rw [if_pos hfull]

/-- Witness for claim C6: a node already holding 100 exit sockets ignores a
create outright. -/
theorem claim_C6_witness : on_create sC6 0 7 (1, 1) qK [] = (sC6, []) :=
  claim_C6_create_flood_ignored sC6 0 7 (1, 1) qK [] (by decide)

theorem sweepExitStep_exits (now : Int) (s : TState) (kv : Nat × ExitSock) :
    (sweepExitStep now s kv).exit_sockets =
      (if exitSweepCond now kv.2 then dictRemove s.exit_sockets kv.1
       else s.exit_sockets) := by
  unfold sweepExitStep
  by_cases h1 : kv.2.creation_time < now - max_time
  · rw [if_pos h1, remove_exit_socket_exits]
    simp [exitSweepCond, h1]
  · rw [if_neg h1]
    by_cases h2 : kv.2.bytes_up + kv.2.bytes_down > max_traffic
    · rw [if_pos h2, remove_exit_socket_exits]
      simp [exitSweepCond, h1, h2]
    · rw [if_neg h2]
      simp [exitSweepCond, h1, h2]

theorem exitSweep_fold_contains (now : Int) :
    ∀ (l : List (Nat × ExitSock)) (s : TState) (k : Nat),
      dictContains (l.foldl (sweepExitStep now) s).exit_sockets k =
        (dictContains s.exit_sockets k &&
          !(l.any (fun kv => decide (kv.1 = k) && exitSweepCond now kv.2))) := by
  intro l
  induction l with
  | nil => intro s k; simp
  | cons kv t ih =>
    intro s k
    rw [List.foldl_cons, ih, List.any_cons]
    cases hc : exitSweepCond now kv.2 with
    | true =>
      have hs : (sweepExitStep now s kv).exit_sockets = dictRemove s.exit_sockets kv.1 := by
        rw [sweepExitStep_exits, if_pos hc]
      rw [hs, dictContains_dictRemove]
      by_cases hk : k = kv.1
      · subst hk; simp
      · have hk2 : ¬ kv.1 = k := fun he => hk he.symm
        simp [hk, hk2]
    | false =>
      have hs : (sweepExitStep now s kv).exit_sockets = s.exit_sockets := by
        rw [sweepExitStep_exits, if_neg (by rw [hc]; exact Bool.false_ne_true)]
      rw [hs]
      simp

theorem sweepCircuitStep_exits (now : Int) (s : TState) (kv : Nat × Circuit) :
    (sweepCircuitStep now s kv).exit_sockets = s.exit_sockets := by
  unfold sweepCircuitStep
  split
  · rw [remove_circuit_exits]
  · split
    · rw [remove_circuit_exits]
    · split
      · rw [remove_circuit_exits]
      · rfl

theorem remove_relay_exits (s : TState) (c : Nat) (d : Bool)
    (g : Option (Nat × Addr)) (b : Bool) :
    (remove_relay s c d g b).1.exit_sockets = s.exit_sockets :=
  foldl_preserves relayDeleteStep TState.exit_sockets relayDeleteStep_exits _ s

theorem sweepRelayStep_exits (now : Int) (s : TState) (kv : Nat × RelayRoute) :
    (sweepRelayStep now s kv).exit_sockets = s.exit_sockets := by
  unfold sweepRelayStep
  split
  · rw [remove_relay_exits]
  · split
    · rw [remove_relay_exits]
    · split
      · rw [remove_relay_exits]
      · rfl

theorem do_remove_exit_contains (s : TState) (now : Int) (k : Nat) :
    dictContains (do_remove s now).exit_sockets k =
      (dictContains s.exit_sockets k &&
        !(s.exit_sockets.any (fun kv => decide (kv.1 = k) && exitSweepCond now kv.2))) := by
  unfold do_remove
  rw [exitSweep_fold_contains]
  have h1 : (s.circuits.foldl (sweepCircuitStep now) s).exit_sockets = s.exit_sockets :=
    foldl_preserves (sweepCircuitStep now) TState.exit_sockets
      (sweepCircuitStep_exits now) s.circuits s
  have h2 : ((s.circuits.foldl (sweepCircuitStep now) s).relay_from_to.foldl
      (sweepRelayStep now) (s.circuits.foldl (sweepCircuitStep now) s)).exit_sockets =
      (s.circuits.foldl (sweepCircuitStep now) s).exit_sockets :=
    foldl_preserves (sweepRelayStep now) TState.exit_sockets
      (sweepRelayStep_exits now) _ _
  rw [h2, h1]

theorem any_key_eq_false {α : Type} (f : α → Bool) :
    ∀ (l : List (Nat × α)) (k : Nat), k ∉ l.map Prod.fst →
      l.any (fun kv => decide (kv.1 = k) && f kv.2) = false := by
  intro l
  induction l with
  | nil => intro k _; rfl
  | cons kv t ih =>
    intro k hk
    have h1 : ¬ kv.1 = k := by
      intro he
      exact hk (by rw [List.map_cons, he]; exact List.mem_cons_self _ _)
    have h2 : k ∉ t.map Prod.fst := by
      intro hm
      exact hk (by rw [List.map_cons]; exact List.mem_cons_of_mem _ hm)
    simp [List.any_cons, h1, ih k h2]

theorem any_key_eq_of_nodup {α : Type} (f : α → Bool) :
    ∀ (l : List (Nat × α)) (k : Nat) (v : α),
      (l.map Prod.fst).Nodup → dictLookup l k = some v →
      l.any (fun kv => decide (kv.1 = k) && f kv.2) = f v := by
  intro l
  induction l with
  | nil => intro k v _ h; simp [dictLookup] at h
  | cons kv t ih =>
    intro k v hnd hl
    rw [List.map_cons, List.nodup_cons] at hnd
    by_cases h1 : kv.1 = k
    · rw [dictLookup, if_pos h1] at hl
      injection hl with hv
      subst hv
      have h2 : k ∉ t.map Prod.fst := by rw [← h1]; exact hnd.1
      rw [List.any_cons, any_key_eq_false f t k h2]
      simp [h1]
    · rw [dictLookup, if_neg h1] at hl
      rw [List.any_cons]
      simp [h1, ih k v hnd.2 hl]

/-- Claim C3 (amended): on a sweeper tick, an exit socket is removed if and
only if it is too old (`now - creation_time > max_time`) or has exceeded
the traffic cap (`bytes_up + bytes_down > max_traffic`).  Unlike circuits
and relays, exit sockets have no inactivity rule (a `TunnelExitSocket`
has no `last_incoming` attribute at all). -/
theorem claim_C3_exit_sweep_amended (s : TState) (now : Int) (k : Nat)
    (e : ExitSock) (hnd : (s.exit_sockets.map Prod.fst).Nodup)
    (he : dictLookup s.exit_sockets k = some e) :
    dictContains (do_remove s now).exit_sockets k = !(exitSweepCond now e) := by
  rw [do_remove_exit_contains,
    any_key_eq_of_nodup (exitSweepCond now) s.exit_sockets k e hnd he,
    dictContains_of_lookup he]
  simp

/-- Counterexample to claim C3 as stated: an exit socket created at time 0
that has never carried traffic nor received anything survives the sweep at
time 100, although the inactivity rule for circuits
(`now - last_incoming > max_time_inactive`, with 100 - 0 > 20) would have
removed it — `do_remove` applies no inactivity rule to exit sockets. -/
theorem claim_C3_counterexample :
    dictContains (do_remove sC3 100).exit_sockets 5 = true ∧
    (100 : Int) - exitC3.creation_time > max_time_inactive ∧
    ¬ ((100 : Int) - exitC3.creation_time > max_time) ∧
    ¬ (exitC3.bytes_up + exitC3.bytes_down > max_traffic) := by
  refine ⟨by decide, by decide, by decide, by decide⟩

/-- Witness for the amended claim C3: the same socket at time 1000 is over
the age cap and the sweep removes it. -/
theorem claim_C3_witness :
    dictContains (do_remove sC3 1000).exit_sockets 5 = false := by
  have h := claim_C3_exit_sweep_amended sC3 1000 5 exitC3 (by decide) rfl
  rw [h]
  decide

theorem dictLookup_mem {α : Type} :
    ∀ (m : List (Nat × α)) (k : Nat) (v : α), dictLookup m k = some v → (k, v) ∈ m := by
  intro m k
  induction m with
  | nil => intro v h; simp [dictLookup] at h
  | cons kv rest ih =>
    intro v h
    by_cases h1 : kv.1 = k
    · rw [dictLookup, if_pos h1] at h
      injection h with hv
      exact List.mem_cons.mpr (Or.inl (by rw [← h1, ← hv]))
    · rw [dictLookup, if_neg h1] at h
      exact List.mem_cons.mpr (Or.inr (ih v h))

theorem remove_relay_msgs (s : TState) (c : Nat) (d : Bool)
    (g : Option (Nat × Addr)) (b : Bool) :
    (remove_relay s c d g b).2 =
      (if d then
        destroy_relay s (c :: (if b then mirrorKeys s.relay_from_to c else [])) 0 g
       else []) := rfl

theorem destroy_relay_unauth (s : TState) (ids : List Nat) (rsn : Nat)
    (g : Nat × Addr)
    (h : ∀ kv ∈ s.relay_from_to, (kv.2.circuit_id, kv.2.sock_addr) ≠ g) :
    destroy_relay s ids rsn (some g) = [] := by
  have hany : (ids.filterMap (fun cid => (dictLookup s.relay_from_to cid).map
      (fun rt => (cid, rt.circuit_id, rt.sock_addr)))).any
      (fun r => decide (some (r.2.1, r.2.2) = some g)) = false := by
    rw [List.any_eq_false]
    intro x hx
    rcases List.mem_filterMap.mp hx with ⟨cid, _, hmap⟩
    cases hrt : dictLookup s.relay_from_to cid with
    | none => rw [hrt] at hmap; simp at hmap
    | some rt =>
      rw [hrt] at hmap
      simp only [Option.map_some'] at hmap
      injection hmap with hmap2
      have hx2 : x.2 = (rt.circuit_id, rt.sock_addr) := by rw [← hmap2]
      have hne := h (cid, rt) (dictLookup_mem _ _ _ hrt)
      simp [hx2, hne]
  simp only [destroy_relay]
  rw [hany]
  rfl

/-- Claim C4 (amended): a destroy for an exit socket's or an own circuit's
id is accepted only from the recorded previous hop / first hop
respectively — any other sender is rejected with no state change and no
message.  For a relayed circuit id, however, `on_destroy` removes the
relay entries (both sides) regardless of the sender; only the forwarding
of the destroy to the other side is restricted: a sender that is not a
declared relay peer causes removal but no destroy is sent. -/
theorem claim_C4_destroy_auth_amended (s : TState) (c : Nat) (sender : Addr)
    (sock : ExitSock) (circ : Circuit) :
    (dictContains s.relay_from_to c = true →
      dictContains (on_destroy s c sender).1.relay_from_to c = false ∧
      (∀ kv ∈ (on_destroy s c sender).1.relay_from_to, kv.2.circuit_id ≠ c)) ∧
    (dictContains s.relay_from_to c = true →
      (∀ kv ∈ s.relay_from_to, (kv.2.circuit_id, kv.2.sock_addr) ≠ (c, sender)) →
      (on_destroy s c sender).2 = []) ∧
    (dictContains s.relay_from_to c = false →
      dictLookup s.exit_sockets c = some sock → sender ≠ sock.sock_addr →
      on_destroy s c sender = (s, [])) ∧
    (dictContains s.relay_from_to c = false →
      dictContains s.exit_sockets c = false →
      dictLookup s.circuits c = some circ → sender ≠ circ.first_hop →
      on_destroy s c sender = (s, [])) := by
  refine ⟨?_, ?_, ?_, ?_⟩
  · intro hrel
    unfold on_destroy
    rw [if_pos hrel]
    exact remove_relay_clears s c true (some (c, sender))
  · intro hrel hun
    unfold on_destroy
    rw [if_pos hrel, remove_relay_msgs, if_pos rfl]
    exact destroy_relay_unauth s _ 0 (c, sender) hun
  · intro hrel hex hsender
    unfold on_destroy
    rw [if_neg (by simp [hrel]), if_pos (dictContains_of_lookup hex), hex]
    simp [hsender]
  · intro hrel hexf hcirc hsender
    unfold on_destroy
    rw [if_neg (by simp [hrel]), if_neg (by simp [hexf]),
      if_pos (dictContains_of_lookup hcirc), hcirc]
    simp [hsender]

/-- Counterexample to claim C4 as stated: on the relay pair `sC4` (declared
relay peers at (10,10) and (20,20)), a destroy for circuit 1 from the
unrelated sender (30,30) is rejected for forwarding (no destroy goes out),
yet it empties `relay_from_to` and `relay_session_keys` — the claim says a
rejected destroy leaves those maps unchanged. -/
theorem claim_C4_counterexample :
    ((30, 30) : Addr) ≠ (10, 10) ∧ ((30, 30) : Addr) ≠ (20, 20) ∧
    (on_destroy sC4 1 (30, 30)).1.relay_from_to = [] ∧
    (on_destroy sC4 1 (30, 30)).1.relay_session_keys = [] ∧
    (on_destroy sC4 1 (30, 30)).2 = [] ∧
    sC4.relay_from_to ≠ [] := by
  exact ⟨by decide, by decide, by decide, by decide, by decide, by decide⟩

/-- Witness for the amended claim C4: rejection of an exit-socket destroy
from a wrong sender at a concrete state, and no forwarded destroy for the
unauthorized relay destroy of `sC4`. -/
theorem claim_C4_witness :
    on_destroy sC9 3 (5, 5) = (sC9, []) ∧ (on_destroy sC4 1 (30, 30)).2 = [] := by
  constructor
  · exact (claim_C4_destroy_auth_amended sC9 3 (5, 5) _ {}).2.2.1 (by decide) rfl (by decide)
  · exact (claim_C4_destroy_auth_amended sC4 1 (30, 30) {} {}).2.1 (by decide) (by decide)

theorem crypto_relay_some (M : CryptoModel) (s : TState) (c : Nat)
    (content : Content) (dir : Nat) (keys : SessionKeys)
    (hdir : dictLookup s.directions c = some dir)
    (hd : dir = ORIGINATOR ∨ dir = EXIT_NODE)
    (hk : dictLookup s.relay_session_keys c = some keys) :
    ∃ r, crypto_relay M s c content = some r := by
  unfold crypto_relay
  simp only [hdir]
  rcases hd with hd | hd
  · subst hd
    rw [if_pos rfl]
    simp only [hk]
    exact ⟨_, rfl⟩
  · subst hd
    rw [if_neg (by decide), if_pos rfl]
    simp only [hk]
    exact ⟨_, rfl⟩

/-- Claim C5 (amended): an incoming packet with circuit id `c` is relayed
iff `c > 0`, `c` is a key of `relay_from_to` and `c` is not in
`waiting_for` (with the relay keys in place so the crypto succeeds); in
every other case `relay_packet` returns `False` and the caller processes
the packet locally.  The source guard `circuit_id > 0` in `is_relay`
means circuit id 0 is always processed locally, which the claim as
stated omits. -/
theorem claim_C5_relay_dispatch_amended (M : CryptoModel) (s : TState)
    (now : Int) (c : Nat) (p : Packet) (nr : RelayRoute) (dir : Nat) :
    ((¬ (0 < c ∧ dictContains s.relay_from_to c = true ∧ c ∉ s.waiting_for)) →
      (relay_packet M s now c p).1 = false) ∧
    (0 < c → dictLookup s.relay_from_to c = some nr → c ∉ s.waiting_for →
      nr.rendezvous_relay = false →
      dictLookup s.directions c = some dir →
      (dir = ORIGINATOR ∨ dir = EXIT_NODE) →
      dictLookup s.relay_session_keys c = some qK →
      (relay_packet M s now c p).1 = true) := by
  constructor
  · intro hnot
    have hf : is_relay s c = false := by
      unfold is_relay
      by_cases h1 : 0 < c
      · by_cases h2 : dictContains s.relay_from_to c = true
        · by_cases h3 : c ∈ s.waiting_for
          · simp [h1, h2, h3]
          · exact absurd ⟨h1, h2, h3⟩ hnot
        · rw [Bool.not_eq_true] at h2
          simp [h1, h2]
      · simp [h1]
    unfold relay_packet
    rw [if_neg (by simp [hf])]
  · intro hc hnr hwf hrdv hdir hd hk
    have hrel : is_relay s c = true := by
      unfold is_relay
      simp [hc, dictContains_of_lookup hnr, hwf]
    unfold relay_packet
    rw [if_pos hrel]
    simp only [hnr]
    cases h1 : dictLookup s.relay_from_to nr.circuit_id with
    | some tr =>
      simp only [h1, hrdv]
      obtain ⟨⟨e, s2⟩, hcs⟩ := crypto_relay_some M
        ({ s with relay_from_to := (dictInsert s.relay_from_to nr.circuit_id
          { tr with last_incoming := now,
                    bytes_down := tr.bytes_down + packetLen p }) })
        c p.encrypted dir qK hdir hd hk
      simp only [Bool.false_eq_true, if_false, hcs]
    | none =>
      simp only [h1, hrdv]
      obtain ⟨⟨e, s2⟩, hcs⟩ := crypto_relay_some M s c p.encrypted dir qK hdir hd hk
      simp only [Bool.false_eq_true, if_false, hcs]

/-- Counterexample to claim C5 as stated: in `sC5`, circuit id 0 is a key
of `relay_from_to` and not in `waiting_for`, yet the packet is not
relayed — `relay_packet` returns `False` and the packet is processed
locally, because `is_relay` also requires `circuit_id > 0`. -/
theorem claim_C5_counterexample :
    dictContains sC5.relay_from_to 0 = true ∧
    (0 ∉ sC5.waiting_for) ∧
    is_relay sC5 0 = false ∧
    (relay_packet M0 sC5 0 0 pC5).1 = false := by
  exact ⟨by decide, by decide, by decide, by decide⟩

/-- Witness for the amended claim C5: on the well-formed relay state
`sC5w`, a packet for circuit id 1 is relayed. -/
theorem claim_C5_witness : (relay_packet M0 sC5w 0 1 pC5).1 = true := by
  have h := (claim_C5_relay_dispatch_amended M0 sC5w 0 1 pC5
    { circuit_id := 9, sock_addr := (10, 10) } EXIT_NODE).2
  exact h (by decide) rfl (by decide) rfl rfl (Or.inr rfl) rfl

theorem dictLookup_singleton {α : Type} (k : Nat) (v : α) :
    dictLookup [(k, v)] k = some v := by simp [dictLookup]

theorem peel_layer_generic (M : CryptoModel) (fk fs fe : SessionKeys → Nat)
    (Hinv : ∀ (content : Content) (key salt se : Nat),
      M.decrypt_str (M.encrypt_str content key salt se) key salt = content) :
    ∀ (qs : List SessionKeys) (c : Content),
      qs.foldl (fun c q => M.decrypt_str c (fk q) (fs q))
        (qs.reverse.foldl (fun c q => M.encrypt_str c (fk q) (fs q) (fe q)) c) = c := by
  intro qs
  induction qs with
  | nil => intro c; rfl
  | cons q rest ih =>
    intro c
    simp only [List.reverse_cons, List.foldl_append, List.foldl_cons, List.foldl_nil]
    rw [Hinv]
    exact ih c

theorem cryptoOutFold_fst (M : CryptoModel) :
    ∀ (l : List Hop) (p : Content × List Hop),
      (l.foldl (cryptoOutStep M) p).1 =
        l.foldl (fun c hop => M.encrypt_str c hop.session_keys.key_exit
          hop.session_keys.salt_exit (hop.session_keys.se_exit + 1)) p.1 := by
  intro l
  induction l with
  | nil => intro p; rfl
  | cons hop t ih =>
    intro p
    rw [List.foldl_cons, List.foldl_cons, ih]
    rfl

theorem crypto_relay_exit_endpoint (M : CryptoModel) (cid : Nat)
    (q : SessionKeys) (c : Content) :
    crypto_relay M (relayEndpointState cid q EXIT_NODE) cid c =
      some (M.decrypt_str c q.key_exit q.salt_exit,
        relayEndpointState cid q EXIT_NODE) := by
  unfold crypto_relay relayEndpointState emptyState
  simp only [dictLookup_singleton]
  rw [if_pos trivial]
  rfl

theorem crypto_relay_orig_endpoint (M : CryptoModel) (cid : Nat)
    (q : SessionKeys) (c : Content) :
    ∃ s2, crypto_relay M (relayEndpointState cid q ORIGINATOR) cid c =
      some (M.encrypt_str c q.key_orig q.salt_orig (q.se_orig + 1), s2) := by
  unfold crypto_relay relayEndpointState emptyState
  simp only [dictLookup_singleton]
  rw [if_pos trivial]
  exact ⟨_, rfl⟩

theorem relayChain_exit (M : CryptoModel) :
    ∀ (qs : List SessionKeys) (c : Content),
      relayChain M EXIT_NODE qs c =
        some (qs.foldl (fun c q => M.decrypt_str c q.key_exit q.salt_exit) c) := by
  intro qs
  induction qs with
  | nil => intro c; rfl
  | cons q rest ih =>
    intro c
    unfold relayChain
    rw [crypto_relay_exit_endpoint]
    exact ih _

theorem relayChain_orig (M : CryptoModel) :
    ∀ (qs : List SessionKeys) (c : Content),
      relayChain M ORIGINATOR qs c =
        some (qs.foldl
          (fun c q => M.encrypt_str c q.key_orig q.salt_orig (q.se_orig + 1)) c) := by
  intro qs
  induction qs with
  | nil => intro c; rfl
  | cons q rest ih =>
    intro c
    unfold relayChain
    obtain ⟨s2, hs2⟩ := crypto_relay_orig_endpoint M 1 q c
    rw [hs2]
    exact ih _

theorem crypto_in_relay_endpoint (M : CryptoModel) (cid : Nat) (q : SessionKeys)
    (dir : Nat) (c : Content) (b : Bool) :
    crypto_in M (relayEndpointState cid q dir) cid c b =
      some (M.decrypt_str c q.key_exit q.salt_exit) := by
  unfold crypto_in relayEndpointState emptyState
  simp only [dictLookup_singleton]
  rfl

theorem crypto_out_relay_endpoint (M : CryptoModel) (cid : Nat) (q : SessionKeys)
    (dir : Nat) (c : Content) (b : Bool) :
    (crypto_out M (relayEndpointState cid q dir) cid c b).map Prod.fst =
      some (M.encrypt_str c q.key_orig q.salt_orig (q.se_orig + 1)) := by
  unfold crypto_out relayEndpointState emptyState
  simp only [dictLookup_singleton]
  rfl

theorem crypto_out_initiator_rp (M : CryptoModel) (cid : Nat)
    (qs : List SessionKeys) (H : SessionKeys) (P : Content) :
    (crypto_out M (initiatorState cid CType.RP qs H) cid P true).map Prod.fst =
      some (qs.reverse.foldl
        (fun c q => M.encrypt_str c q.key_exit q.salt_exit (q.se_exit + 1))
        (M.encrypt_str P H.key_exit H.salt_exit (H.se_exit + 1))) := by
  unfold crypto_out initiatorState mkCircuit emptyState
  simp only [dictLookup_singleton]
  rw [if_pos (by simp)]
  simp only [Option.map_some']
  rw [cryptoOutFold_fst, ← List.map_reverse, List.foldl_map]
  rfl

theorem crypto_out_initiator_rdv (M : CryptoModel) (cid : Nat)
    (qs : List SessionKeys) (H : SessionKeys) (P : Content) :
    (crypto_out M (initiatorState cid CType.RENDEZVOUS qs H) cid P true).map Prod.fst =
      some (qs.reverse.foldl
        (fun c q => M.encrypt_str c q.key_exit q.salt_exit (q.se_exit + 1))
        (M.encrypt_str P H.key_orig H.salt_orig (H.se_orig + 1))) := by
  unfold crypto_out initiatorState mkCircuit emptyState
  simp only [dictLookup_singleton]
  rw [if_pos (by simp)]
  simp only [Option.map_some']
  rw [cryptoOutFold_fst, ← List.map_reverse, List.foldl_map]
  rfl

theorem crypto_in_initiator_rdv (M : CryptoModel) (cid : Nat)
    (qs : List SessionKeys) (H : SessionKeys) (P : Content) (hne : qs ≠ []) :
    crypto_in M (initiatorState cid CType.RENDEZVOUS qs H) cid P true =
      some (M.decrypt_str
        (qs.foldl (fun c q => M.decrypt_str c q.key_orig q.salt_orig) P)
        H.key_exit H.salt_exit) := by
  unfold crypto_in initiatorState mkCircuit emptyState
  simp only [dictLookup_singleton]
  rw [if_pos (by simpa using List.length_pos.mpr hne)]
  rw [if_pos (by simp)]
  rw [List.foldl_map]
  rfl

theorem crypto_in_initiator_rp (M : CryptoModel) (cid : Nat)
    (qs : List SessionKeys) (H : SessionKeys) (P : Content) (hne : qs ≠ []) :
    crypto_in M (initiatorState cid CType.RP qs H) cid P true =
      some (M.decrypt_str
        (qs.foldl (fun c q => M.decrypt_str c q.key_orig q.salt_orig) P)
        H.key_orig H.salt_orig) := by
  unfold crypto_in initiatorState mkCircuit emptyState
  simp only [dictLookup_singleton]
  rw [if_pos (by simpa using List.length_pos.mpr hne)]
  rw [if_pos (by simp)]
  rw [List.foldl_map]
  rfl

theorem peel_layer_exit (M : CryptoModel)
    (Hinv : ∀ (content : Content) (key salt se : Nat),
      M.decrypt_str (M.encrypt_str content key salt se) key salt = content)
    (qs : List SessionKeys) (c : Content) :
    qs.foldl (fun c q => M.decrypt_str c q.key_exit q.salt_exit)
      (qs.reverse.foldl
        (fun c q => M.encrypt_str c q.key_exit q.salt_exit (q.se_exit + 1)) c) = c :=
  peel_layer_generic M (fun q => q.key_exit) (fun q => q.salt_exit)
    (fun q => q.se_exit + 1) Hinv qs c

theorem peel_layer_orig (M : CryptoModel)
    (Hinv : ∀ (content : Content) (key salt se : Nat),
      M.decrypt_str (M.encrypt_str content key salt se) key salt = content)
    (qs : List SessionKeys) (c : Content) :
    qs.foldl (fun c q => M.decrypt_str c q.key_orig q.salt_orig)
      (qs.reverse.foldl
        (fun c q => M.encrypt_str c q.key_orig q.salt_orig (q.se_orig + 1)) c) = c :=
  peel_layer_generic M (fun q => q.key_orig) (fun q => q.salt_orig)
    (fun q => q.se_orig + 1) Hinv qs c

/-- Claim C7: composing the outbound layered encryption with the inbound
layered decryption at the corresponding endpoints is the identity.  The
initiator of an RP (resp. RENDEZVOUS) circuit applies the
`hs_session_keys` layer with direction `int(ctype == RP)` and one
`EXIT_NODE` layer per hop in reverse hop order (`crypto_out`); each
middle relay peels one layer (`crypto_relay`, EXIT_NODE direction), the
rendezvous point peels the last hop's layer (`crypto_in`) and re-encrypts
toward the other initiator (`crypto_out`, then ORIGINATOR `crypto_relay`
at each middle); the receiving initiator's `crypto_in` peels one layer
per hop in forward order and then the `hs_session_keys` layer with
direction `int(ctype != RP)`, recovering the payload. -/
theorem claim_C7_crypto_roundtrip (M : CryptoModel)
    (Hinv : ∀ (content : Content) (key salt se : Nat),
      M.decrypt_str (M.encrypt_str content key salt se) key salt = content)
    (A B : List SessionKeys) (qa qb H : SessionKeys) (t1 t2 : CType)
    (ht : (t1 = CType.RP ∧ t2 = CType.RENDEZVOUS) ∨
          (t1 = CType.RENDEZVOUS ∧ t2 = CType.RP))
    (P : Content) :
    (((((((crypto_out M (initiatorState 1 t1 (A ++ [qa]) H) 1 P true).map
        Prod.fst).bind
      (fun p => relayChain M EXIT_NODE A p)).bind
      (fun p => crypto_in M (relayEndpointState 2 qa EXIT_NODE) 2 p false)).bind
      (fun p => (crypto_out M (relayEndpointState 3 qb EXIT_NODE) 3 p false).map
        Prod.fst)).bind
      (fun p => relayChain M ORIGINATOR B.reverse p)).bind
      (fun p => crypto_in M (initiatorState 4 t2 (B ++ [qb]) H) 4 p true))
    = some P := by
  rcases ht with ⟨h1, h2⟩ | ⟨h1, h2⟩
  · subst h1; subst h2
    rw [crypto_out_initiator_rp, Option.some_bind, relayChain_exit,
      Option.some_bind, crypto_in_relay_endpoint, Option.some_bind,
      crypto_out_relay_endpoint, Option.some_bind, relayChain_orig,
      Option.some_bind, crypto_in_initiator_rdv M 4 (B ++ [qb]) H _ (by simp)]
    have hA := peel_layer_exit M Hinv (A ++ [qa])
      (M.encrypt_str P H.key_exit H.salt_exit (H.se_exit + 1))
    rw [List.foldl_append, List.foldl_cons, List.foldl_nil] at hA
    rw [hA]
    have hB := peel_layer_orig M Hinv (B ++ [qb])
      (M.encrypt_str P H.key_exit H.salt_exit (H.se_exit + 1))
    rw [List.reverse_append] at hB
    simp only [List.reverse_cons, List.reverse_nil, List.nil_append,
      List.singleton_append, List.foldl_cons] at hB
    rw [hB, Hinv]
  · subst h1; subst h2
    rw [crypto_out_initiator_rdv, Option.some_bind, relayChain_exit,
      Option.some_bind, crypto_in_relay_endpoint, Option.some_bind,
      crypto_out_relay_endpoint, Option.some_bind, relayChain_orig,
      Option.some_bind, crypto_in_initiator_rp M 4 (B ++ [qb]) H _ (by simp)]
    have hA := peel_layer_exit M Hinv (A ++ [qa])
      (M.encrypt_str P H.key_orig H.salt_orig (H.se_orig + 1))
    rw [List.foldl_append, List.foldl_cons, List.foldl_nil] at hA
    rw [hA]
    have hB := peel_layer_orig M Hinv (B ++ [qb])
      (M.encrypt_str P H.key_orig H.salt_orig (H.se_orig + 1))
    rw [List.reverse_append] at hB
    simp only [List.reverse_cons, List.reverse_nil, List.nil_append,
      List.singleton_append, List.foldl_cons] at hB
    rw [hB, Hinv]

/-- Witness for claim C7: a concrete round trip through the push/pop
crypto model `M0`, with one middle relay on each side of the rendezvous
point, recovers the payload `[5]`. -/
theorem claim_C7_witness :
    (((((((crypto_out M0 (initiatorState 1 CType.RP ([qK2] ++ [qK]) qH) 1 [5] true).map
        Prod.fst).bind
      (fun p => relayChain M0 EXIT_NODE [qK2] p)).bind
      (fun p => crypto_in M0 (relayEndpointState 2 qK EXIT_NODE) 2 p false)).bind
      (fun p => (crypto_out M0 (relayEndpointState 3 qK2 EXIT_NODE) 3 p false).map
        Prod.fst)).bind
      (fun p => relayChain M0 ORIGINATOR ([qK] : List SessionKeys).reverse p)).bind
      (fun p => crypto_in M0 (initiatorState 4 CType.RENDEZVOUS ([qK] ++ [qK2]) qH) 4 p true))
    = some [5] :=
  claim_C7_crypto_roundtrip M0 (fun content key salt se => rfl) [qK2] [qK] qK qK2 qH
    CType.RP CType.RENDEZVOUS (Or.inl ⟨rfl, rfl⟩) [5]
